import Mathlib

/-!
Verification of the gorouter metrics/error-classification core.

Part 1 embeds the `error_classifiers` package: each classifier is a total
Boolean predicate over an embedded universe of Go error values.

Part 2 embeds `src/router/varz.go`: the `HttpMetric` cell, the
`TaggedHttpMetric` get-or-create map, and the `Varz` aggregator, as pure
state-transition functions.
-/

namespace Gorouter

/-- Universe of Go error values relevant to the classifiers, as dynamic
types. Each concrete error type carries `isPtr` distinguishing the pointer
form (`*T`) from the value form (`T`), since Go type switches and type
assertions distinguish them. Pointer values are modelled as valid referents
with the fields the `net`/`crypto` packages document as always present
(in particular `net.OpError.Err` is documented non-nil, so an `opError`
always carries its underlying error message). A Go `nil` error is `none`
of `Option GoError`. -/
inductive GoError where
  | opError (isPtr : Bool) (op : String) (errMsg : String)
  | recordHeaderError (isPtr : Bool)
  | hostnameError (isPtr : Bool)
  | unknownAuthorityError (isPtr : Bool)
  | other (msg : String)
deriving DecidableEq, Repr

/-- A Go `error` interface value: `none` is the nil interface. -/
abbrev GoErr := Option GoError

/-- Embeds `AttemptedTLSWithNonTLSBackend`: a type switch matching
`tls.RecordHeaderError` in value or pointer form. -/
def AttemptedTLSWithNonTLSBackend : GoErr → Bool
  | some (.recordHeaderError _) => true
  | _ => false

/-- Embeds `Dial`: type assertion to `*net.OpError`, then `ne.Op == "dial"`. -/
def Dial : GoErr → Bool
  | some (.opError true op _) => op == "dial"
  | _ => false

/-- Embeds `ConnectionResetOnRead`: assertion to `*net.OpError`, then
`ne.Op == "read" && ne.Err.Error() == "read: connection reset by peer"`. -/
def ConnectionResetOnRead : GoErr → Bool
  | some (.opError true op msg) =>
      op == "read" && msg == "read: connection reset by peer"
  | _ => false

/-- Embeds `RemoteFailedCertCheck`: assertion to `*net.OpError`, then
`ne.Op == "remote error" && ne.Err.Error() == "tls: bad certificate"`. -/
def RemoteFailedCertCheck : GoErr → Bool
  | some (.opError true op msg) =>
      op == "remote error" && msg == "tls: bad certificate"
  | _ => false

/-- Embeds `RemoteHandshakeFailure`: assertion to `*net.OpError`, then
`ne.Op == "remote error" && ne.Err.Error() == "tls: handshake failure"`. -/
def RemoteHandshakeFailure : GoErr → Bool
  | some (.opError true op msg) =>
      op == "remote error" && msg == "tls: handshake failure"
  | _ => false

/-- Embeds `HostnameMismatch`: a type switch matching `x509.HostnameError`
in value or pointer form. -/
def HostnameMismatch : GoErr → Bool
  | some (.hostnameError _) => true
  | _ => false

/-- Embeds `UntrustedCert`: a type switch matching
`x509.UnknownAuthorityError` in value or pointer form. -/
def UntrustedCert : GoErr → Bool
  | some (.unknownAuthorityError _) => true
  | _ => false

/-- The seven classifiers of the registry, in source order. -/
def classifiers : List (GoErr → Bool) :=
  [AttemptedTLSWithNonTLSBackend, Dial, ConnectionResetOnRead,
   RemoteFailedCertCheck, RemoteHandshakeFailure, HostnameMismatch,
   UntrustedCert]

/-- Exact shape matched by `AttemptedTLSWithNonTLSBackend`. -/
def shapeTLSNonTLS (e : GoErr) : Prop :=
  ∃ b, e = some (.recordHeaderError b)

/-- Exact shape matched by `Dial`. -/
def shapeDial (e : GoErr) : Prop :=
  ∃ m, e = some (.opError true "dial" m)

/-- Exact shape matched by `ConnectionResetOnRead`. -/
def shapeReset (e : GoErr) : Prop :=
  e = some (.opError true "read" "read: connection reset by peer")

/-- Exact shape matched by `RemoteFailedCertCheck`. -/
def shapeFailedCert (e : GoErr) : Prop :=
  e = some (.opError true "remote error" "tls: bad certificate")

/-- Exact shape matched by `RemoteHandshakeFailure`. -/
def shapeHandshake (e : GoErr) : Prop :=
  e = some (.opError true "remote error" "tls: handshake failure")

/-- Exact shape matched by `HostnameMismatch`. -/
def shapeHostname (e : GoErr) : Prop :=
  ∃ b, e = some (.hostnameError b)

/-- Exact shape matched by `UntrustedCert`. -/
def shapeUntrusted (e : GoErr) : Prop :=
  ∃ b, e = some (.unknownAuthorityError b)

/-- C1: each of the seven classifiers is a total Boolean function over the
whole error universe (so it never panics), it returns `true` exactly on its
matching shape — hence `false` on every non-matching error value — and every
classifier returns `false` on the nil error. -/
theorem classifiers_total_and_false_on_nonmatching (e : GoErr) :
    (AttemptedTLSWithNonTLSBackend e = true ↔ shapeTLSNonTLS e) ∧
    (Dial e = true ↔ shapeDial e) ∧
    (ConnectionResetOnRead e = true ↔ shapeReset e) ∧
    (RemoteFailedCertCheck e = true ↔ shapeFailedCert e) ∧
    (RemoteHandshakeFailure e = true ↔ shapeHandshake e) ∧
    (HostnameMismatch e = true ↔ shapeHostname e) ∧
    (UntrustedCert e = true ↔ shapeUntrusted e) ∧
    (∀ c ∈ classifiers, c none = false) := by
  refine ⟨?_, ?_, ?_, ?_, ?_, ?_, ?_, ?_⟩
  · cases e with
    | none => simp [AttemptedTLSWithNonTLSBackend, shapeTLSNonTLS]
    | some g =>
      cases g <;>
        simp [AttemptedTLSWithNonTLSBackend, shapeTLSNonTLS]
  · cases e with
    | none => simp [Dial, shapeDial]
    | some g =>
      cases g with
      | opError p op m =>
        cases p <;> simp [Dial, shapeDial]
      | recordHeaderError b => simp [Dial, shapeDial]
      | hostnameError b => simp [Dial, shapeDial]
      | unknownAuthorityError b => simp [Dial, shapeDial]
      | other m => simp [Dial, shapeDial]
  · cases e with
    | none => simp [ConnectionResetOnRead, shapeReset]
    | some g =>
      cases g with
      | opError p op m =>
        cases p <;> simp [ConnectionResetOnRead, shapeReset]
      | recordHeaderError b => simp [ConnectionResetOnRead, shapeReset]
      | hostnameError b => simp [ConnectionResetOnRead, shapeReset]
      | unknownAuthorityError b => simp [ConnectionResetOnRead, shapeReset]
      | other m => simp [ConnectionResetOnRead, shapeReset]
  · cases e with
    | none => simp [RemoteFailedCertCheck, shapeFailedCert]
    | some g =>
      cases g with
      | opError p op m =>
        cases p <;> simp [RemoteFailedCertCheck, shapeFailedCert]
      | recordHeaderError b => simp [RemoteFailedCertCheck, shapeFailedCert]
      | hostnameError b => simp [RemoteFailedCertCheck, shapeFailedCert]
      | unknownAuthorityError b => simp [RemoteFailedCertCheck, shapeFailedCert]
      | other m => simp [RemoteFailedCertCheck, shapeFailedCert]
  · cases e with
    | none => simp [RemoteHandshakeFailure, shapeHandshake]
    | some g =>
      cases g with
      | opError p op m =>
        cases p <;> simp [RemoteHandshakeFailure, shapeHandshake]
      | recordHeaderError b => simp [RemoteHandshakeFailure, shapeHandshake]
      | hostnameError b => simp [RemoteHandshakeFailure, shapeHandshake]
      | unknownAuthorityError b => simp [RemoteHandshakeFailure, shapeHandshake]
      | other m => simp [RemoteHandshakeFailure, shapeHandshake]
  · cases e with
    | none => simp [HostnameMismatch, shapeHostname]
    | some g =>
      cases g <;> simp [HostnameMismatch, shapeHostname]
  · cases e with
    | none => simp [UntrustedCert, shapeUntrusted]
    | some g =>
      cases g <;> simp [UntrustedCert, shapeUntrusted]
  · intro c hc
    simp only [classifiers, List.mem_cons, List.not_mem_nil, or_false] at hc
    rcases hc with h | h | h | h | h | h | h <;> subst h <;> rfl

/-- The peer-reset read error of the literal classifier scenario: a
`*net.OpError` with `Op = "read"` whose underlying error message is exactly
`"read: connection reset by peer"`. -/
def peerResetErr : GoErr :=
  some (.opError true "read" "read: connection reset by peer")

/-- C4: the literal classifier scenarios — the peer-reset read error makes
only `ConnectionResetOnRead` true; a dial-stage `*net.OpError` (any
underlying message) makes only `Dial` true; an x509 hostname-verification
error (value or pointer form) makes only `HostnameMismatch` true; and a nil
or unrelated error makes every one of the seven classifiers return false. -/
theorem classifier_scenarios (m msg : String) (b : Bool) :
    (ConnectionResetOnRead peerResetErr = true ∧
      AttemptedTLSWithNonTLSBackend peerResetErr = false ∧
      Dial peerResetErr = false ∧
      RemoteFailedCertCheck peerResetErr = false ∧
      RemoteHandshakeFailure peerResetErr = false ∧
      HostnameMismatch peerResetErr = false ∧
      UntrustedCert peerResetErr = false) ∧
    (Dial (some (.opError true "dial" m)) = true ∧
      AttemptedTLSWithNonTLSBackend (some (.opError true "dial" m)) = false ∧
      ConnectionResetOnRead (some (.opError true "dial" m)) = false ∧
      RemoteFailedCertCheck (some (.opError true "dial" m)) = false ∧
      RemoteHandshakeFailure (some (.opError true "dial" m)) = false ∧
      HostnameMismatch (some (.opError true "dial" m)) = false ∧
      UntrustedCert (some (.opError true "dial" m)) = false) ∧
    (HostnameMismatch (some (.hostnameError b)) = true ∧
      AttemptedTLSWithNonTLSBackend (some (.hostnameError b)) = false ∧
      Dial (some (.hostnameError b)) = false ∧
      ConnectionResetOnRead (some (.hostnameError b)) = false ∧
      RemoteFailedCertCheck (some (.hostnameError b)) = false ∧
      RemoteHandshakeFailure (some (.hostnameError b)) = false ∧
      UntrustedCert (some (.hostnameError b)) = false) ∧
    (∀ c ∈ classifiers, c none = false ∧ c (some (.other msg)) = false) := by
  refine ⟨?_, ?_, ?_, ?_⟩
  · exact ⟨rfl, rfl, rfl, rfl, rfl, rfl, rfl⟩
  · refine ⟨rfl, rfl, ?_, ?_, ?_, rfl, rfl⟩ <;>
      simp [ConnectionResetOnRead, RemoteFailedCertCheck,
        RemoteHandshakeFailure]
  · exact ⟨rfl, rfl, rfl, rfl, rfl, rfl, rfl⟩
  · intro c hc
    simp only [classifiers, List.mem_cons, List.not_mem_nil, or_false] at hc
    rcases hc with h | h | h | h | h | h | h <;> subst h <;> exact ⟨rfl, rfl⟩

/-- C10: the four `net.OpError`-based classifiers only fire on the pointer
form — the value form `net.OpError` always yields false, whatever its op
and message — while the three TLS/x509 type-switch classifiers accept both
the value and pointer forms of their matched error types. -/
theorem opError_classifiers_pointer_only (op m : String) (b : Bool) :
    (Dial (some (.opError false op m)) = false ∧
      ConnectionResetOnRead (some (.opError false op m)) = false ∧
      RemoteFailedCertCheck (some (.opError false op m)) = false ∧
      RemoteHandshakeFailure (some (.opError false op m)) = false) ∧
    (∀ e, Dial e = true → ∃ o mm, e = some (.opError true o mm)) ∧
    (∀ e, ConnectionResetOnRead e = true → ∃ o mm, e = some (.opError true o mm)) ∧
    (∀ e, RemoteFailedCertCheck e = true → ∃ o mm, e = some (.opError true o mm)) ∧
    (∀ e, RemoteHandshakeFailure e = true → ∃ o mm, e = some (.opError true o mm)) ∧
    (AttemptedTLSWithNonTLSBackend (some (.recordHeaderError b)) = true ∧
      HostnameMismatch (some (.hostnameError b)) = true ∧
      UntrustedCert (some (.unknownAuthorityError b)) = true) := by
  refine ⟨⟨rfl, rfl, rfl, rfl⟩, ?_, ?_, ?_, ?_, ⟨rfl, rfl, rfl⟩⟩ <;>
    · intro e he
      match e, he with
      | some (.opError true o mm), _ => exact ⟨o, mm, rfl⟩

/-- State of a `HttpMetric` cell (varz.go). The go-metrics `Counter`s are
embedded as natural numbers (each `Inc(1)` adds one), the `Meter` as the
count of marked events, and the `Histogram`'s reservoir as the list of
samples handed to `Update` (the external go-metrics decay-eviction detail
is abstracted; see `sampleUpdate`). -/
structure HttpMetric where
  requests : Nat
  rateMarks : Nat
  responses2xx : Nat
  responses3xx : Nat
  responses4xx : Nat
  responses5xx : Nat
  responsesXxx : Nat
  latency : List Int
deriving DecidableEq, Repr

/-- Embeds `NewHttpMetric`: all counters zero, empty reservoir. -/
def NewHttpMetric : HttpMetric :=
  { requests := 0, rateMarks := 0, responses2xx := 0, responses3xx := 0,
    responses4xx := 0, responses5xx := 0, responsesXxx := 0, latency := [] }

/-- Recording a sample into the latency reservoir: go-metrics
`Histogram.Update` inserts the value into the reservoir (the external
library's decayed eviction is abstracted as plain insertion). -/
def sampleUpdate (res : List Int) (v : Int) : List Int :=
  res ++ [v]

/-- Embeds the status computation of `CaptureResponse`: `var s int` stays
`0` for a nil response, otherwise `s = y.StatusCode / 100` with Go's
truncating integer division. The response is its status code, `none` for a
nil `*http.Response`. -/
def statusDiv (y : Option Int) : Int :=
  match y with
  | none => 0
  | some code => Int.tdiv code 100

/-- Embeds `HttpMetric.CaptureRequest`: increments the request counter and
marks one event on the rate meter. -/
def CaptureRequest (m : HttpMetric) : HttpMetric :=
  { m with requests := m.requests + 1, rateMarks := m.rateMarks + 1 }

/-- Embeds `HttpMetric.CaptureResponse`: switch on `statusDiv`, increment
the matching bucket (default `ResponsesXxx`), then update the latency
reservoir with the elapsed nanoseconds `z`. -/
def CaptureResponse (m : HttpMetric) (y : Option Int) (z : Int) : HttpMetric :=
  let s := statusDiv y
  let m' :=
    if s = 2 then { m with responses2xx := m.responses2xx + 1 }
    else if s = 3 then { m with responses3xx := m.responses3xx + 1 }
    else if s = 4 then { m with responses4xx := m.responses4xx + 1 }
    else if s = 5 then { m with responses5xx := m.responses5xx + 1 }
    else { m with responsesXxx := m.responsesXxx + 1 }
  { m' with latency := sampleUpdate m'.latency z }

/-- C2: `CaptureResponse` increments exactly the bucket selected by the
status code divided by 100 (2–5), and exactly `ResponsesXxx` in every other
case including a nil response (where the selector is 0); no other bucket
or counter changes, and in every case the elapsed duration is recorded
into the latency reservoir. -/
theorem captureResponse_buckets (m : HttpMetric) (y : Option Int) (z : Int) :
    (CaptureResponse m y z).latency = sampleUpdate m.latency z ∧
    (CaptureResponse m y z).requests = m.requests ∧
    (CaptureResponse m y z).rateMarks = m.rateMarks ∧
    (CaptureResponse m y z).responses2xx
      = m.responses2xx + (if statusDiv y = 2 then 1 else 0) ∧
    (CaptureResponse m y z).responses3xx
      = m.responses3xx + (if statusDiv y = 3 then 1 else 0) ∧
    (CaptureResponse m y z).responses4xx
      = m.responses4xx + (if statusDiv y = 4 then 1 else 0) ∧
    (CaptureResponse m y z).responses5xx
      = m.responses5xx + (if statusDiv y = 5 then 1 else 0) ∧
    (CaptureResponse m y z).responsesXxx
      = m.responsesXxx +
          (if statusDiv y = 2 ∨ statusDiv y = 3 ∨ statusDiv y = 4 ∨
              statusDiv y = 5 then 0 else 1) ∧
    statusDiv none = 0 := by
  unfold CaptureResponse
  split_ifs <;> simp_all [statusDiv]

/-- Embeds `TaggedHttpMetric`, Go's `map[string]*HttpMetric`, as an
association list; the cell a key maps to plays the role of the pointed-to
`HttpMetric`. -/
abbrev TaggedHttpMetric := List (String × HttpMetric)

/-- Embeds `TaggedHttpMetric.httpMetric` (get-or-create): look up the tag;
if absent, create a fresh cell and insert it. Returns the cell together
with the possibly-extended map (the Go method mutates the receiver map in
place). -/
def httpMetric (x : TaggedHttpMetric) (t : String) : HttpMetric × TaggedHttpMetric :=
  match x.lookup t with
  | some y => (y, x)
  | none => (NewHttpMetric, (t, NewHttpMetric) :: x)

/-- Overwrite the cell stored at tag `t` (the functional counterpart of
mutating through the `*HttpMetric` returned by `httpMetric`). -/
def setTag : TaggedHttpMetric → String → HttpMetric → TaggedHttpMetric
  | [], t, v => [(t, v)]
  | (k, w) :: rest, t, v =>
      if k == t then (t, v) :: rest else (k, w) :: setTag rest t v

/-- Embeds `TaggedHttpMetric.CaptureRequest(t)`: get-or-create the cell for
`t`, then `CaptureRequest` on it. -/
def TaggedCaptureRequest (x : TaggedHttpMetric) (t : String) : TaggedHttpMetric :=
  setTag (httpMetric x t).2 t (CaptureRequest (httpMetric x t).1)

/-- Embeds `TaggedHttpMetric.CaptureResponse(t, y, z)`: get-or-create the
cell for `t`, then `CaptureResponse` on it. -/
def TaggedCaptureResponse (x : TaggedHttpMetric) (t : String) (y : Option Int)
    (z : Int) : TaggedHttpMetric :=
  setTag (httpMetric x t).2 t (CaptureResponse (httpMetric x t).1 y z)

/-- When a lookup misses, the key heads no entry of the association list. -/
theorem lookup_none_key_absent (x : TaggedHttpMetric) (t : String)
    (hl : x.lookup t = none) : t ∉ x.map Prod.fst := by
  induction x with
  | nil => simp
  | cons p rest ih =>
    obtain ⟨k, w⟩ := p
    by_cases hk : t = k
    · subst hk
      simp [List.lookup] at hl
    · have hbeq : (t == k) = false := by
        simp [hk]
      simp only [List.lookup, hbeq] at hl
      simpa [hk] using ih hl

/-- C6: get-or-create never yields a null-like cell — the returned cell is
exactly what the returned map holds at `t` — and it is idempotent: a second
call with the same tag returns the identical cell and leaves the map
unchanged; moreover, when the map's keys are duplicate-free they stay so,
so the map holds at most one cell per tag value. -/
theorem httpMetric_get_or_create (x : TaggedHttpMetric) (t : String)
    (h : (x.map Prod.fst).Nodup) :
    (httpMetric x t).2.lookup t = some (httpMetric x t).1 ∧
    httpMetric (httpMetric x t).2 t = ((httpMetric x t).1, (httpMetric x t).2) ∧
    ((httpMetric x t).2.map Prod.fst).Nodup := by
  rcases hl : x.lookup t with _ | y
  · have hmap : httpMetric x t = (NewHttpMetric, (t, NewHttpMetric) :: x) := by
      simp [httpMetric, hl]
    rw [hmap]
    have hlook : ((t, NewHttpMetric) :: x).lookup t = some NewHttpMetric := by
      simp [List.lookup]
    refine ⟨hlook, by simp [httpMetric, hlook], ?_⟩
    simpa [List.nodup_cons, h] using lookup_none_key_absent x t hl
  · have hmap : httpMetric x t = (y, x) := by
      simp [httpMetric, hl]
    rw [hmap]
    exact ⟨hl, by simp [httpMetric, hl], h⟩

/-- Witness for C6 at a concrete map and tag. -/
theorem httpMetric_get_or_create_witness :
    (httpMetric [("go", NewHttpMetric)] "rack").2.lookup "rack"
        = some (httpMetric [("go", NewHttpMetric)] "rack").1 ∧
    httpMetric (httpMetric [("go", NewHttpMetric)] "rack").2 "rack"
        = ((httpMetric [("go", NewHttpMetric)] "rack").1,
           (httpMetric [("go", NewHttpMetric)] "rack").2) ∧
    ((httpMetric [("go", NewHttpMetric)] "rack").2.map Prod.fst).Nodup :=
  httpMetric_get_or_create [("go", NewHttpMetric)] "rack" (by simp)

/-- An entry of the top-apps list emitted in the snapshot document
(varz.go `topAppsEntry`). -/
structure TopAppsEntry where
  applicationId : String
  requestsPerSecond : Int
  requestsPerMinute : Int
deriving DecidableEq, Repr

/-- An entry of the ranking the external registry's `TopApps.TopSince`
returns: an application id and its request count over the window. -/
structure TopAppEntry where
  applicationId : String
  requests : Int
deriving DecidableEq, Repr

/-- The three tag dimensions of `varz.Tags`. -/
structure VarzTags where
  component : TaggedHttpMetric
  framework : TaggedHttpMetric
  runtime : TaggedHttpMetric
deriving DecidableEq, Repr

/-- The mutable state of the `Varz` aggregator (the fields of the embedded
`varz` struct). `urls`, `droplets`, `requestsPerSec` and `topApps` are the
derived fields recomputed at serialization time. -/
structure VarzState where
  all : HttpMetric
  tags : VarzTags
  urls : Int
  droplets : Int
  badRequests : Nat
  requestsPerSec : ℚ
  topApps : List TopAppsEntry
deriving DecidableEq, Repr

/-- Embeds `NewVarz`: a fresh `All` cell and three empty tag maps. -/
def NewVarz : VarzState :=
  { all := NewHttpMetric,
    tags := { component := [], framework := [], runtime := [] },
    urls := 0, droplets := 0, badRequests := 0, requestsPerSec := 0,
    topApps := [] }

/-- A backend as seen by the aggregator: its tag map, embedded as an
association list (`b.Tags` is Go's `map[string]string`). -/
structure Backend where
  tags : List (String × String)

/-- Embeds `Varz.CaptureBadRequest`: increments the bad-request counter. -/
def CaptureBadRequest (x : VarzState) : VarzState :=
  { x with badRequests := x.badRequests + 1 }

/-- Embeds `Varz.CaptureBackendRequest`: for each of the three well-known
tag dimensions present in the backend's tag map, `CaptureRequest` on that
dimension's tagged set; then `CaptureRequest` on the untagged `All` cell,
exactly once. -/
def CaptureBackendRequest (b : Backend) (x : VarzState) : VarzState :=
  let x :=
    match b.tags.lookup "component" with
    | some t => { x with tags.component := TaggedCaptureRequest x.tags.component t }
    | none => x
  let x :=
    match b.tags.lookup "framework" with
    | some t => { x with tags.framework := TaggedCaptureRequest x.tags.framework t }
    | none => x
  let x :=
    match b.tags.lookup "runtime" with
    | some t => { x with tags.runtime := TaggedCaptureRequest x.tags.runtime t }
    | none => x
  { x with all := CaptureRequest x.all }

/-- Embeds `Varz.CaptureBackendResponse`: symmetric to
`CaptureBackendRequest`, using `CaptureResponse`. -/
def CaptureBackendResponse (b : Backend) (y : Option Int) (z : Int)
    (x : VarzState) : VarzState :=
  let x :=
    match b.tags.lookup "component" with
    | some t => { x with tags.component := TaggedCaptureResponse x.tags.component t y z }
    | none => x
  let x :=
    match b.tags.lookup "framework" with
    | some t => { x with tags.framework := TaggedCaptureResponse x.tags.framework t y z }
    | none => x
  let x :=
    match b.tags.lookup "runtime" with
    | some t => { x with tags.runtime := TaggedCaptureResponse x.tags.runtime t y z }
    | none => x
  { x with all := CaptureResponse x.all y z }

/-- C3: `CaptureBackendRequest` touches each tag dimension exactly when the
backend's tag map has that key — in particular a backend without a
"component" tag leaves the component dimension untouched — and updates the
untagged `All` cell exactly once per call, incrementing its request count
by one; nothing else in the aggregator state changes. -/
theorem captureBackendRequest_frame (b : Backend) (x : VarzState) :
    ((CaptureBackendRequest b x).tags.component =
      match b.tags.lookup "component" with
      | some t => TaggedCaptureRequest x.tags.component t
      | none => x.tags.component) ∧
    ((CaptureBackendRequest b x).tags.framework =
      match b.tags.lookup "framework" with
      | some t => TaggedCaptureRequest x.tags.framework t
      | none => x.tags.framework) ∧
    ((CaptureBackendRequest b x).tags.runtime =
      match b.tags.lookup "runtime" with
      | some t => TaggedCaptureRequest x.tags.runtime t
      | none => x.tags.runtime) ∧
    (CaptureBackendRequest b x).all = CaptureRequest x.all ∧
    (CaptureBackendRequest b x).all.requests = x.all.requests + 1 ∧
    (CaptureBackendRequest b x).badRequests = x.badRequests ∧
    (CaptureBackendRequest b x).urls = x.urls ∧
    (CaptureBackendRequest b x).droplets = x.droplets ∧
    (CaptureBackendRequest b x).topApps = x.topApps := by
  unfold CaptureBackendRequest
  rcases b.tags.lookup "component" with _ | tc <;>
    rcases b.tags.lookup "framework" with _ | tf <;>
      rcases b.tags.lookup "runtime" with _ | tr <;>
        simp [CaptureRequest]

/-- Modelled from the spec: `stats.TopAppsEntryLifetime` lives in the
external `router/stats` package, which is not under `src/`; the spec fixes
the top-apps window to the trailing 1 minute, so its length in seconds is
60. -/
def TopAppsEntryLifetimeSeconds : Int := 60

/-- Modelled from the spec: `Registry.TopApps.TopSince(t, n)` is provided
by the external registry; the spec says the registry is asked for at most
the top `n` entries over the trailing window, so the ranking it serves is
capped at `n` entries. -/
def TopSince (ranking : List TopAppEntry) (n : Nat) : List TopAppEntry :=
  ranking.take n

/-- Embeds `Varz.updateTop`: ask the registry for at most the top 10
entries over the trailing 1-minute window, and rebuild `topApps` from
scratch, each entry carrying `rpm = requests` and `rps = requests`
integer-divided (Go truncating division) by the window length in seconds.
The ranking the registry would serve is passed in as `ranking`. -/
def updateTop (ranking : List TopAppEntry) (x : VarzState) : VarzState :=
  let y := TopSince ranking 10
  { x with topApps := y.map fun z =>
      { applicationId := z.applicationId,
        requestsPerSecond := Int.tdiv z.requests TopAppsEntryLifetimeSeconds,
        requestsPerMinute := z.requests } }

/-- The values `Varz.MarshalJSON` reads from outside the aggregator state:
the registry's URL and backend counts, the top-apps ranking it serves for
the trailing minute, and the `All` cell meter's 1-minute rate (the
go-metrics EWMA read depends on wall-clock time, so it enters the model as
an environment value). -/
structure RegistryView where
  numUris : Int
  numBackends : Int
  topApps : List TopAppEntry
  allRate1 : ℚ

/-- Embeds `Varz.MarshalJSON`'s state update: overwrite `urls` and
`droplets` from the registry, `requestsPerSec` from the `All` rate meter,
then `updateTop`. The emitted document is `json.Marshal` of the resulting
`varz` value, so the returned state is the document's content. -/
def MarshalJSON (reg : RegistryView) (x : VarzState) : VarzState :=
  let x := { x with urls := reg.numUris, droplets := reg.numBackends }
  let x := { x with requestsPerSec := reg.allRate1 }
  updateTop reg.topApps x

/-- C5: the emitted top-apps list has at most 10 entries, is exactly the
reshaped top-10 of the ranking, and every entry satisfies
`rps = rpm / 60` (truncating division) with `rpm` the entry's request
count; concretely an entry with 600 requests yields `rps = 10`,
`rpm = 600`. -/
theorem updateTop_spec (ranking : List TopAppEntry) (x : VarzState) :
    (updateTop ranking x).topApps.length ≤ 10 ∧
    (updateTop ranking x).topApps = (TopSince ranking 10).map
      (fun z => { applicationId := z.applicationId,
                  requestsPerSecond := Int.tdiv z.requests 60,
                  requestsPerMinute := z.requests }) ∧
    (∀ e ∈ (updateTop ranking x).topApps,
      e.requestsPerSecond = Int.tdiv e.requestsPerMinute 60) ∧
    (updateTop [{ applicationId := "app", requests := 600 }] x).topApps
      = [{ applicationId := "app", requestsPerSecond := 10,
           requestsPerMinute := 600 }] := by
  refine ⟨?_, rfl, ?_, ?_⟩
  · simp [updateTop, TopSince]
  · intro e he
    simp only [updateTop, List.mem_map] at he
    obtain ⟨z, _, hz⟩ := he
    subst hz
    rfl
  · rfl

/-- C9: serialization is read-only with respect to captured state — after
`MarshalJSON` the `All` cell, all three tag maps and the bad-request
counter are unchanged, only the derived fields `urls`, `droplets`,
`requestsPerSec` and `topApps` are overwritten — so a second serialization
with no intervening captures reports the same counters. -/
theorem marshalJSON_readonly (reg reg2 : RegistryView) (x : VarzState) :
    (MarshalJSON reg x).all = x.all ∧
    (MarshalJSON reg x).tags = x.tags ∧
    (MarshalJSON reg x).badRequests = x.badRequests ∧
    (MarshalJSON reg x).urls = reg.numUris ∧
    (MarshalJSON reg x).droplets = reg.numBackends ∧
    (MarshalJSON reg x).requestsPerSec = reg.allRate1 ∧
    (MarshalJSON reg x).topApps = (updateTop reg.topApps x).topApps ∧
    (MarshalJSON reg2 (MarshalJSON reg x)).all = (MarshalJSON reg x).all ∧
    (MarshalJSON reg2 (MarshalJSON reg x)).tags = (MarshalJSON reg x).tags ∧
    (MarshalJSON reg2 (MarshalJSON reg x)).badRequests
      = (MarshalJSON reg x).badRequests := by
  refine ⟨rfl, rfl, rfl, rfl, rfl, rfl, ?_, rfl, rfl, rfl⟩
  simp [MarshalJSON, updateTop]

/-- The interpolation step of the percentile query, at a position `pos`
with `1 ≤ pos < size`: `lower` is the sample at index `int(pos) - 1`,
`upper` the one at `int(pos)`, and the result is
`lower + (pos - float64(int(pos))) * (upper - lower)`; the truncation
`int(pos)` coincides with the floor since `pos` is nonnegative here. -/
def quantileMid (sorted : List Int) (pos : ℚ) : ℚ :=
  ((sorted.getD (⌊pos⌋.toNat - 1) 0 : ℤ) : ℚ)
    + (pos - (⌊pos⌋ : ℚ))
      * (((sorted.getD ⌊pos⌋.toNat 0 : ℤ) : ℚ)
          - ((sorted.getD (⌊pos⌋.toNat - 1) 0 : ℤ) : ℚ))

/-- The rank position of the quantile `p` in a sample of `size` values:
`p * (size + 1)`. -/
def rankPos (size : Nat) (p : ℚ) : ℚ := p * ((size : ℚ) + 1)

/-- Modelled from the spec: the percentile query of the external go-metrics
library (`SamplePercentiles`, reached through `Histogram.Percentiles`),
which is not under `src/`. Per the spec it sorts the current sample set and
interpolates at the requested rank, an empty reservoir yielding zero. On a
sorted sample list of length `size`, the rank position is `p * (size + 1)`;
below 1 it clamps to the first sample, at or above `size` to the last, and
otherwise interpolates between the two neighbouring samples. Arithmetic is
carried out in `ℚ` in place of `float64`. -/
def SampleQuantile (sorted : List Int) (p : ℚ) : ℚ :=
  if sorted.length = 0 then 0
  else if rankPos sorted.length p < 1 then ((sorted.getD 0 0 : ℤ) : ℚ)
  else if (sorted.length : ℚ) ≤ rankPos sorted.length p then
    ((sorted.getD (sorted.length - 1) 0 : ℤ) : ℚ)
  else quantileMid sorted (rankPos sorted.length p)

/-- Modelled from the spec: go-metrics `SamplePercentiles` — sort the
sample values ascending, then answer each requested quantile. -/
def SamplePercentiles (values : List Int) (ps : List ℚ) : List ℚ :=
  ps.map (SampleQuantile (values.insertionSort (· ≤ ·)))

/-- Embeds the latency part of `HttpMetric.MarshalJSON`: query the
reservoir for the 0.5, 0.75 and 0.99 percentiles and file them under the
keys "50", "75" and "99". -/
def latencyMapOf (samples : List Int) : List (String × ℚ) :=
  [("50", (SamplePercentiles samples [1/2, 3/4, 99/100]).getD 0 0),
   ("75", (SamplePercentiles samples [1/2, 3/4, 99/100]).getD 1 0),
   ("99", (SamplePercentiles samples [1/2, 3/4, 99/100]).getD 2 0)]

/-- On a sorted list, access is monotone in the index. -/
theorem sorted_getD_mono {l : List Int} (hl : l.Sorted (· ≤ ·)) {i j : ℕ}
    (hij : i ≤ j) (hj : j < l.length) : l.getD i 0 ≤ l.getD j 0 := by
  have hi : i < l.length := lt_of_le_of_lt hij hj
  have h := List.Sorted.rel_get_of_le hl
    (a := ⟨i, hi⟩) (b := ⟨j, hj⟩) (Fin.mk_le_mk.mpr hij)
  simpa [List.getD_eq_getElem?_getD, List.getElem?_eq_getElem, hi, hj,
    List.get_eq_getElem] using h

/-- Bounds on the floor-derived index used by the interpolation branch. -/
theorem floor_toNat_facts {pos : ℚ} {n : ℕ} (h1 : 1 ≤ pos)
    (h2 : pos < (n : ℚ)) : 1 ≤ ⌊pos⌋.toNat ∧ ⌊pos⌋.toNat < n := by
  have hI1 : (1 : ℤ) ≤ ⌊pos⌋ := Int.le_floor.mpr (by exact_mod_cast h1)
  have hIn : ⌊pos⌋ < (n : ℤ) := Int.floor_lt.mpr (by exact_mod_cast h2)
  omega

/-- The interpolated value lies between its two neighbouring samples. -/
theorem quantileMid_bounds {l : List Int} (hl : l.Sorted (· ≤ ·)) {pos : ℚ}
    (h1 : 1 ≤ pos) (h2 : pos < (l.length : ℚ)) :
    ((l.getD (⌊pos⌋.toNat - 1) 0 : ℤ) : ℚ) ≤ quantileMid l pos ∧
    quantileMid l pos ≤ ((l.getD ⌊pos⌋.toNat 0 : ℤ) : ℚ) := by
  obtain ⟨hi1, hin⟩ := floor_toNat_facts h1 h2
  have hul : ((l.getD (⌊pos⌋.toNat - 1) 0 : ℤ) : ℚ)
      ≤ ((l.getD ⌊pos⌋.toNat 0 : ℤ) : ℚ) := by
    exact_mod_cast sorted_getD_mono hl (Nat.sub_le _ _) hin
  have hf0 : (0 : ℚ) ≤ pos - (⌊pos⌋ : ℚ) := sub_nonneg.mpr (Int.floor_le pos)
  have hf1 : pos - (⌊pos⌋ : ℚ) ≤ 1 := by
    have := Int.lt_floor_add_one pos
    linarith
  unfold quantileMid
  constructor
  · nlinarith
  · nlinarith

/-- The percentile query is monotone in the requested quantile on any
sorted sample list. -/
theorem sampleQuantile_mono {l : List Int} (hl : l.Sorted (· ≤ ·))
    {p q : ℚ} (hpq : p ≤ q) : SampleQuantile l p ≤ SampleQuantile l q := by
  by_cases h0 : l.length = 0
  · simp [SampleQuantile, h0]
  have hple : rankPos l.length p ≤ rankPos l.length q := by
    unfold rankPos
    apply mul_le_mul_of_nonneg_right hpq
    positivity
  rw [SampleQuantile, SampleQuantile, if_neg h0, if_neg h0]
  by_cases hp1 : rankPos l.length p < 1
  · rw [if_pos hp1]
    by_cases hq1 : rankPos l.length q < 1
    · rw [if_pos hq1]
    · rw [if_neg hq1]
      by_cases hqn : (l.length : ℚ) ≤ rankPos l.length q
      · rw [if_pos hqn]
        exact_mod_cast sorted_getD_mono hl (Nat.zero_le _) (by omega)
      · rw [if_neg hqn]
        have h1q : 1 ≤ rankPos l.length q := le_of_not_lt hq1
        have hqqn : rankPos l.length q < (l.length : ℚ) := lt_of_not_le hqn
        obtain ⟨hj1, hjn⟩ := floor_toNat_facts h1q hqqn
        refine le_trans ?_ (quantileMid_bounds hl h1q hqqn).1
        exact_mod_cast sorted_getD_mono hl (Nat.zero_le _) (by omega)
  · rw [if_neg hp1]
    have h1p : 1 ≤ rankPos l.length p := le_of_not_lt hp1
    have h1q : 1 ≤ rankPos l.length q := le_trans h1p hple
    rw [if_neg (not_lt.mpr h1q)]
    by_cases hpn : (l.length : ℚ) ≤ rankPos l.length p
    · rw [if_pos hpn, if_pos (le_trans hpn hple)]
    · rw [if_neg hpn]
      have hppn : rankPos l.length p < (l.length : ℚ) := lt_of_not_le hpn
      obtain ⟨hi1, hin⟩ := floor_toNat_facts h1p hppn
      by_cases hqn : (l.length : ℚ) ≤ rankPos l.length q
      · rw [if_pos hqn]
        refine le_trans (quantileMid_bounds hl h1p hppn).2 ?_
        exact_mod_cast sorted_getD_mono hl (by omega) (by omega)
      · rw [if_neg hqn]
        have hqqn : rankPos l.length q < (l.length : ℚ) := lt_of_not_le hqn
        obtain ⟨hj1, hjn⟩ := floor_toNat_facts h1q hqqn
        have hIJ : ⌊rankPos l.length p⌋ ≤ ⌊rankPos l.length q⌋ :=
          Int.floor_mono hple
        by_cases hEq : ⌊rankPos l.length p⌋ = ⌊rankPos l.length q⌋
        · unfold quantileMid
          rw [hEq]
          have hul : ((l.getD (⌊rankPos l.length q⌋.toNat - 1) 0 : ℤ) : ℚ)
              ≤ ((l.getD ⌊rankPos l.length q⌋.toNat 0 : ℤ) : ℚ) := by
            exact_mod_cast sorted_getD_mono hl (Nat.sub_le _ _) hjn
          nlinarith
        · have hIJlt : ⌊rankPos l.length p⌋ < ⌊rankPos l.length q⌋ :=
            lt_of_le_of_ne hIJ hEq
          refine le_trans (quantileMid_bounds hl h1p hppn).2
            (le_trans ?_ (quantileMid_bounds hl h1q hqqn).1)
          exact_mod_cast sorted_getD_mono hl (by omega) (by omega)

/-- C7: the serialized latency map has exactly the keys "50", "75" and
"99"; its reported percentiles always satisfy p50 ≤ p75 ≤ p99 (in
particular on any non-empty reservoir); and the empty reservoir yields the
default zero for all three, rather than an error. -/
theorem latency_percentiles_spec (samples : List Int) :
    (∃ p50 p75 p99,
      latencyMapOf samples = [("50", p50), ("75", p75), ("99", p99)] ∧
      p50 ≤ p75 ∧ p75 ≤ p99) ∧
    latencyMapOf [] = [("50", 0), ("75", 0), ("99", 0)] := by
  have hs : (samples.insertionSort (· ≤ ·)).Sorted (· ≤ ·) :=
    List.sorted_insertionSort _ samples
  refine ⟨⟨_, _, _, rfl, ?_, ?_⟩, by norm_num [latencyMapOf,
    SamplePercentiles, SampleQuantile]⟩
  · exact sampleQuantile_mono hs (by norm_num)
  · exact sampleQuantile_mono hs (by norm_num)

end Gorouter
